import Mathlib

/-!
Verification of the treeshake CLI's static purity analyzer.

The embedding follows the sources:
- `src/index.js` — the main implementation: `filterEffects` (node collection),
  `lint` (classification loop over the position-sorted record sequence),
  `builtins` (the allowlist), `lineNumbers`, and the top-level aggregator.
- `src/unnamed/part_000` — the iteration carrying the padded diagnostic
  renderer (`lineNumbers` with `padStart`, per-diagnostic `maxLine`/`maxColumn`
  field padding) and the quoted success line.

Machine strings are modelled as Lean `String` (lists of characters); numbers
printed with JavaScript's `Number.prototype.toString` are modelled by `natStr`.
-/

namespace Treeshake

/-- A source position as acorn attaches it to every node: the absolute
`start` offset plus the 1-based `line` and 0-based `column` of `loc.start`. -/
structure Pos where
  start : Nat
  line : Nat
  column : Nat
deriving DecidableEq, Repr

/-- The acorn syntax-tree nodes that `filterEffects` in `src/index.js`
dispatches on (plus the comment records delivered by `onComment`).
Member accesses are modelled in their non-computed form (`object.prop`).
Nodes of kinds the analyzer never inspects are `otherNode`. -/
inductive Ast where
  | ident (name : String)
  | member (pos : Pos) (obj : Ast) (prop : String)
  | callE (pos : Pos) (callee : Ast) (args : List Ast)
  | newE (pos : Pos) (callee : Ast) (args : List Ast)
  | assign (lhs rhs : Ast)
  | binary (lhs rhs : Ast)
  | objectE (props : List Ast)
  | property (key value : Ast)
  | arrayE (elems : List Ast)
  | funcExpr (body : List Ast)
  | exprStmt (e : Ast)
  | varDecl (decls : List Ast)
  | declarator (init : Ast)
  | functionDecl (body : List Ast)
  | importDecl
  | otherNode
  | blockComment (value : String) (pos : Pos)
  | lineComment (value : String) (pos : Pos)
  | lit
deriving Repr

/-- The records `filterEffects` pushes into its `nodes` accumulator:
purity-annotation comments, invocations/constructions (remembering the
`hasValue` mark a `VariableDeclarator` may have set on them), and member
accesses. -/
inductive NodeRec where
  | pureMark (pos : Pos)
  | invoke (isNew : Bool) (callee : Ast) (hv : Bool) (pos : Pos)
  | memberN (pos : Pos)
deriving Repr

/-- JavaScript `String.prototype.trim`, on the character list. -/
def jsTrim (s : String) : String :=
  let ws : Char → Bool := fun c => c == ' ' || c == '\t' || c == '\n' || c == '\r'
  ⟨((s.data.dropWhile ws).reverse.dropWhile ws).reverse⟩

/-- Whether a block comment's text is one of the two purity markers
(`src/index.js` line 187). -/
def isPureText (s : String) : Bool :=
  jsTrim s == "@__PURE__" || jsTrim s == "#__PURE__"

mutual

/-- `filterEffects` from `src/index.js` (lines 186-220): collects annotation
comments, invocations, constructions and member accesses in depth-first
order.  The `hv` argument models the `hasValue` field of the node being
visited — the mutation `node.init.hasValue = true` performed by the
`VariableDeclarator` case becomes passing `true` to the recursive call on the
initializer; every other recursive call passes `false` since nothing else
sets the field. -/
def filterEffects (hv : Bool) : Ast → List NodeRec
  | .blockComment v pos => if isPureText v then [.pureMark pos] else []
  | .callE pos callee args => .invoke false callee hv pos :: filterEffectsList args
  | .newE pos callee args => .invoke true callee hv pos :: filterEffectsList args
  | .member pos _ _ => [.memberN pos]
  | .exprStmt e => filterEffects false e
  | .varDecl decls => filterEffectsList decls
  | .declarator init => filterEffects true init
  | .assign lhs rhs => filterEffects false lhs ++ filterEffects false rhs
  | .binary lhs rhs => filterEffects false lhs ++ filterEffects false rhs
  | .objectE props => filterEffectsList props
  | .property k v => filterEffects false k ++ filterEffects false v
  | .arrayE elems => filterEffectsList elems
  | .ident _ => []
  | .funcExpr _ => []
  | .functionDecl _ => []
  | .importDecl => []
  | .otherNode => []
  | .lineComment _ _ => []
  | .lit => []

/-- The `for (const argument of node.arguments) filterEffects(argument, nodes)`
style loops of `filterEffects`, shared by all list-valued children. -/
def filterEffectsList : List Ast → List NodeRec
  | [] => []
  | a :: as => filterEffects false a ++ filterEffectsList as

end

/-- The fixed allowlist `builtins` of `src/index.js` (lines 65-184). -/
def builtins : List String :=
  ["Array", "Array.isArray", "ArrayBuffer", "ArrayBuffer.isView", "Boolean",
   "DataView", "Date", "Date.UTC", "Date.now", "Date.parse", "Error",
   "EvalError", "Float32Array", "Float64Array", "Function", "Int16Array",
   "Int32Array", "Int8Array", "InternalError", "Intl.Collator",
   "Intl.Collator.supportedLocalesOf", "Intl.DateTimeFormat",
   "Intl.DateTimeFormat.supportedLocalesOf", "Intl.NumberFormat",
   "Intl.NumberFormat.supportedLocalesOf", "JSON.parse", "JSON.stringify",
   "Map", "Math.abs", "Math.acos", "Math.acosh", "Math.asin", "Math.asinh",
   "Math.atan", "Math.atan2", "Math.atanh", "Math.cbrt", "Math.ceil",
   "Math.clz32", "Math.cos", "Math.cosh", "Math.exp", "Math.expm1",
   "Math.floor", "Math.fround", "Math.hypot", "Math.imul", "Math.log",
   "Math.log10", "Math.log1p", "Math.log2", "Math.max", "Math.min",
   "Math.pow", "Math.random", "Math.round", "Math.sign", "Math.sin",
   "Math.sinh", "Math.sqrt", "Math.tan", "Math.tanh", "Math.trunc", "Number",
   "Number.isFinite", "Number.isInteger", "Number.isNaN",
   "Number.isSafeInteger", "Number.parseFloat", "Number.parseInt", "Object",
   "Object.create", "Object.getNotifier", "Object.getOwn",
   "Object.getOwnPropertyDescriptor", "Object.getOwnPropertyNames",
   "Object.getOwnPropertySymbols", "Object.getPrototypeOf", "Object.is",
   "Object.isExtensible", "Object.isFrozen", "Object.isSealed", "Object.keys",
   "Promise", "Promise.all", "Promise.race", "Promise.reject",
   "Promise.resolve", "RangeError", "ReferenceError", "RegExp", "Set",
   "String", "String.fromCharCode", "String.fromCodePoint", "String.raw",
   "Symbol", "Symbol.for", "Symbol.keyFor", "SyntaxError", "TypeError",
   "URIError", "Uint16Array", "Uint32Array", "Uint8Array",
   "Uint8ClampedArray", "WeakMap", "WeakSet", "decodeURI",
   "decodeURIComponent", "encodeURI", "encodeURIComponent", "escape",
   "isFinite", "isNaN", "parseFloat", "parseInt", "unescape"]

/-- JavaScript's reading of `node.callee.object.name` inside the template
literal on line 255 of `src/index.js`: an `Identifier` yields its name, any
other *existing* object node has no `.name` field, which the template
stringifies as `"undefined"`. -/
def objectName : Ast → String
  | .ident n => n
  | _ => "undefined"

/-- Line 255 of `src/index.js`:
`node.callee.name || `${node.callee.object.name}.${node.callee.property.name}``.
An `Identifier` callee has a (truthy) `.name`; a `MemberExpression` callee
reconstructs `object.property`; any other callee has neither `.name` nor
`.object`, so evaluating the template literal dereferences `undefined` and
throws a `TypeError` — modelled as `none`. -/
def calleeName : Ast → Option String
  | .ident n => some n
  | .member _ obj prop => some (objectName obj ++ "." ++ prop)
  | _ => none

/-- The word spliced into the diagnostic messages (`src/index.js` line 256):
`"function"` for a `CallExpression`, `"class"` for a `NewExpression`. -/
def invWord (isNew : Bool) : String := if isNew then "class" else "function"

/-- The `UnassignedInvocation` message (`src/index.js` line 259). -/
def unassignedMsg (isNew : Bool) : String :=
  "Top-level " ++ invWord isNew ++ " invocations must have a value or they will be discarded!"

/-- The `UnannotatedInvocation`/`UnannotatedConstruction` message
(`src/index.js` line 261). -/
def annotMsg (isNew : Bool) : String :=
  "Top-level " ++ invWord isNew ++ " invocations must be annotated with /* @__PURE__ */!"

/-- The `RiskyMemberAccess` message (`src/index.js` line 264). -/
def riskyMsg : String :=
  "Top-level member expressions may call expressive code! Prefer destructuring."

/-- A diagnostic: the `line`/`column` of the offending node plus the message.
`src/index.js` pushes the already-formatted string
``errors.push(`${line}:${column} ${error}`)``; `Diag.render` below produces
exactly that string. -/
structure Diag where
  line : Nat
  column : Nat
  msg : String
deriving DecidableEq, Repr

/-- The source position every collected record carries (`node.loc.start` and
`node.start`). -/
def NodeRec.pos : NodeRec → Pos
  | .pureMark p => p
  | .invoke _ _ _ p => p
  | .memberN p => p

/-- The `start` offset used by the comparator `(a, b) => a.start - b.start`
on line 244 of `src/index.js`. -/
def NodeRec.start (n : NodeRec) : Nat := n.pos.start

/-- `nodes.sort((a, b) => a.start - b.start)` (`src/index.js` line 244). -/
def sortNodes (ns : List NodeRec) : List NodeRec :=
  ns.insertionSort (fun a b => a.start ≤ b.start)

/-- `for (const node of ast.body.concat(comments)) filterEffects(node, nodes)`
(`src/index.js` lines 241-243): the collected record sequence of a module,
statements first, comments appended, sharing one accumulator. -/
def collectModule (body comments : List Ast) : List NodeRec :=
  filterEffectsList (body ++ comments)

/-- The per-invocation classification of `lint` (`src/index.js` lines
257-262): `const pure = annotation || builtins.includes(name)`, then the
`!pure && !node.hasValue` / `!pure` branches choose the message. -/
def classifyMsg (pending : Bool) (nm : String) (isNew hv : Bool) : Option String :=
  let isPure := pending || builtins.contains nm
  if !isPure && !hv then some (unassignedMsg isNew)
  else if !isPure then some (annotMsg isNew)
  else none

/-- The classification loop of `lint` (`src/index.js` lines 249-274),
threading the `annotation` flag (here `pending`): a record produces an
optional diagnostic, and after each record the flag becomes "this record was
a purity annotation".  Reconstructing the callee name of an anonymous callee
throws (see `calleeName`), which aborts the whole run with `none`. -/
def processNodes : Bool → List NodeRec → Option (List Diag)
  | _, [] => some []
  | _, .pureMark _ :: rest => processNodes true rest
  | pending, .invoke isNew callee hv pos :: rest =>
    match calleeName callee with
    | none => none
    | some nm =>
      (processNodes false rest).map fun ds =>
        match classifyMsg pending nm isNew hv with
        | some m => ⟨pos.line, pos.column, m⟩ :: ds
        | none => ds
  | _, .memberN pos :: rest =>
    (processNodes false rest).map fun ds => ⟨pos.line, pos.column, riskyMsg⟩ :: ds

/-- Decimal digit character, as JavaScript's `Number.prototype.toString`. -/
def digitChar (n : Nat) : Char := Char.ofNat (48 + n)

/-- Decimal rendering worker; the first argument is recursion fuel (any
amount above the digit count gives the same digits). -/
def natStrAux : Nat → Nat → List Char
  | 0, _ => []
  | fuel + 1, n =>
    if n < 10 then [digitChar n]
    else natStrAux fuel (n / 10) ++ [digitChar (n % 10)]

/-- JavaScript's `n.toString()` for the non-negative integers the analyzer
prints (line and column numbers). -/
def natStr (n : Nat) : String := ⟨natStrAux (n + 1) n⟩

/-- `'>' + lines[line - 1].slice(1)` (`src/index.js` line 269 and
`src/unnamed/part_000` line 122): the first character of a rendered line is
replaced by the `>` marker. -/
def markStr (s : String) : String := ⟨'>' :: s.data.drop 1⟩

/-- One `lines[line - 1] = ...` marking step. -/
def markAt (ls : List String) (i : Nat) : List String :=
  ls.set i (markStr (ls.getD i ""))

/-- The line-numbering loop shared by both `lineNumbers` implementations:
`source.replace(/^/gm, ...)` prefixes every line with a gutter built from a
counter starting at 1; splitting on newlines again gives this list. -/
def numberWith (gut : Nat → String) : Nat → List String → List String
  | _, [] => []
  | n, l :: ls => (gut n ++ l) :: numberWith gut (n + 1) ls

/-- The gutter of `src/index.js` line 222: two spaces, the line number, a
colon. -/
def gutterIdx (n : Nat) : String := "  " ++ natStr n ++ ":"

/-- `lineNumbers` of `src/index.js` (line 222), as the list of prefixed
lines. -/
def numberLinesIdx (srcLines : List String) : List String :=
  numberWith gutterIdx 1 srcLines

/-- What `lint` returns (`src/index.js` line 276): the annotated listing
(there joined with newlines) and the diagnostics (there already formatted by
`Diag.render`). -/
structure LintResult where
  listing : List String
  errors : List Diag
deriving DecidableEq, Repr

/-- `lint` of `src/index.js` (lines 224-277), from the parsed module body and
comment list (the `esbuild.transform` + `acorn.parse` front end is outside
the model; `srcLines` are the lines of the parsed text): collect the records,
sort them by `start`, classify them, and mark the listing line of every
diagnostic.  `none` models the `TypeError` thrown for an anonymous callee. -/
def lintAst (body comments : List Ast) (srcLines : List String) : Option LintResult :=
  (processNodes false (sortNodes (collectModule body comments))).map fun ds =>
    { listing := ds.foldl (fun acc d => markAt acc (d.line - 1)) (numberLinesIdx srcLines)
      errors := ds }

/-- `${line}:${column} ${error}` (`src/index.js` line 270). -/
def Diag.render (d : Diag) : String :=
  natStr d.line ++ ":" ++ natStr d.column ++ " " ++ d.msg

/-- JavaScript `String.prototype.padStart(w)`: pad with spaces on the left up
to width `w` (no-op when already at least that wide). -/
def padStart (s : String) (w : Nat) : String :=
  ⟨List.replicate (w - s.data.length) ' ' ++ s.data⟩

/-- JavaScript `String.prototype.padEnd(w)`: pad with spaces on the right. -/
def padEnd (s : String) (w : Nat) : String :=
  ⟨s.data ++ List.replicate (w - s.data.length) ' '⟩

/-- The gutter of `lineNumbers` in `src/unnamed/part_000` (lines 65-66):
```${offset}:`.padStart(lines.toString().length + 3)`` where `lines` is the
total line count. -/
def gutterP0 (total n : Nat) : String :=
  padStart (natStr n ++ ":") ((natStr total).length + 3)

/-- `lineNumbers` of `src/unnamed/part_000`, as the list of prefixed lines. -/
def numberLinesP0 (srcLines : List String) : List String :=
  numberWith (gutterP0 srcLines.length) 1 srcLines

/-- `maxLine` of `src/unnamed/part_000` (line 123): the running maximum of
the digit counts of the diagnostic line numbers. -/
def maxLineW (ds : List Diag) : Nat :=
  ds.foldl (fun m d => max m (natStr d.line).length) 0

/-- `maxColumn` of `src/unnamed/part_000` (line 124). -/
def maxColW (ds : List Diag) : Nat :=
  ds.foldl (fun m d => max m (natStr d.column).length) 0

/-- One formatted diagnostic of `src/unnamed/part_000` (lines 143-145):
```${line.padStart(maxLine)}:${column.padEnd(maxColumn)} ${error}```. -/
def renderMsgP0 (maxL maxC : Nat) (d : Diag) : String :=
  padStart (natStr d.line) maxL ++ ":" ++ padEnd (natStr d.column) maxC ++ " " ++ d.msg

/-- The diagnostic renderer of `src/unnamed/part_000`: the marked,
line-numbered listing (lines 94, 120-126, 141) and the formatted message
lines (lines 142-146). -/
def renderP0 (srcLines : List String) (ds : List Diag) : List String × List String :=
  (ds.foldl (fun acc d => markAt acc (d.line - 1)) (numberLinesP0 srcLines),
   ds.map (renderMsgP0 (maxLineW ds) (maxColW ds)))

/-- `Object.keys(bundlers)` — the configured backends, in declaration
order (`src/index.js` lines 11-63). -/
def bundlerNames : List String := ["Rollup", "Webpack", "ESBuild"]

/-- Modelled external collaborator: `new Intl.ListFormat('en', { style:
'long', type: 'conjunction' }).format`, the tail after the first element. -/
def listFormatConjRest : List String → String
  | [] => ""
  | [a] => ", and " ++ a
  | a :: rest => ", " ++ a ++ listFormatConjRest rest

/-- Modelled external collaborator: `new Intl.ListFormat('en', { style:
'long', type: 'conjunction' }).format` — "a", "a and b", "a, b, and c". -/
def listFormatConj : List String → String
  | [] => ""
  | [a] => a
  | [a, b] => a ++ " and " ++ b
  | a :: rest => a ++ listFormatConjRest rest

/-- The success line of `src/index.js` (line 306):
```Successfully tree-shaken ${input} with ${targets}!``` — the input path is
spliced in bare. -/
def successLineIdx (input : String) : String :=
  "Successfully tree-shaken " ++ input ++ " with " ++ listFormatConj bundlerNames ++ "!"

/-- The success line of `src/unnamed/part_000` (line 156):
```Successfully tree-shaken "${input}" with ${targets}!``` — there the input
path is quoted. -/
def successLineP0 (input : String) : String :=
  "Successfully tree-shaken \"" ++ input ++ "\" with " ++ listFormatConj bundlerNames ++ "!"

/-- `node.type !== 'ImportDeclaration'` (`src/index.js` line 290), negated. -/
def isImportDecl : Ast → Bool
  | .importDecl => true
  | _ => false

/-- The throw on line 298 of `src/index.js`. -/
def failMsgIdx (input bundler : String) : String :=
  "Couldn't tree-shake " ++ input ++ " with " ++ bundler ++ "!"

/-- The backend loop of `src/index.js` (lines 283-306): each backend's
compiled output (given here parsed, paired with the backend name) must
consist solely of import declarations; the first residual backend aborts the
run with the failure message (the diagnostics it also prints are covered by
`lintAst`), and when every backend passes the success line is printed. -/
def runBackendsIdx (input : String) : List (String × List Ast) → Except String String
  | [] => .ok (successLineIdx input)
  | (b, body) :: rest =>
    if body.all isImportDecl then runBackendsIdx input rest
    else .error (failMsgIdx input b)

/-- The process exit code: the `try`/`catch` of `src/index.js` (lines
279-310) calls `process.exit(1)` on any thrown value and otherwise lets the
process end with code 0. -/
def exitCodeIdx (input : String) (outs : List (String × List Ast)) : Nat :=
  match runBackendsIdx input outs with
  | .ok _ => 0
  | .error _ => 1

/-- Lexicographic "line, then column" order on positions. -/
def lexLE (p q : Nat × Nat) : Prop := p.1 < q.1 ∨ (p.1 = q.1 ∧ p.2 ≤ q.2)

/-- The (line, column) position of a diagnostic. -/
def dPair (d : Diag) : Nat × Nat := (d.line, d.column)

/-- The (line, column) position of a collected record. -/
def nPair (n : NodeRec) : Nat × Nat := (n.pos.line, n.pos.column)

/-- The positions acorn attaches are consistent: a record that starts at an
earlier (or equal) offset is at an earlier (or equal) line/column.  Every
real parse satisfies this, since `start` counts characters from the top of
the text while line/column locate the same character. -/
def PosConsistent (ns : List NodeRec) : Prop :=
  ∀ m ∈ ns, ∀ n ∈ ns, m.start ≤ n.start → lexLE (nPair m) (nPair n)

/-! ### Helper lemmas -/

theorem natStrAux_fuel : ∀ (n f g : Nat), n < f → n < g →
    natStrAux f n = natStrAux g n := by
  intro n
  induction n using Nat.strong_induction_on with
  | _ n ih =>
    intro f g hf hg
    obtain ⟨f', rfl⟩ : ∃ f', f = f' + 1 := ⟨f - 1, by omega⟩
    obtain ⟨g', rfl⟩ : ∃ g', g = g' + 1 := ⟨g - 1, by omega⟩
    by_cases h10 : n < 10
    · simp [natStrAux, h10]
    · have hdiv : n / 10 < n := Nat.div_lt_self (by omega) (by omega)
      have heq : natStrAux f' (n / 10) = natStrAux g' (n / 10) :=
        ih (n / 10) hdiv f' g' (by omega) (by omega)
      simp [natStrAux, h10, heq]

theorem natStr_length_step (n : Nat) :
    (natStr n).length = if n < 10 then 1 else (natStr (n / 10)).length + 1 := by
  by_cases h10 : n < 10
  · simp [natStr, natStrAux, h10, String.length]
  · have hdiv : n / 10 < n := Nat.div_lt_self (by omega) (by omega)
    have heq : natStrAux n (n / 10) = natStrAux (n / 10 + 1) (n / 10) :=
      natStrAux_fuel (n / 10) n (n / 10 + 1) hdiv (by omega)
    simp [natStr, natStrAux, h10, heq, String.length]

theorem natStr_length_pos (n : Nat) : 1 ≤ (natStr n).length := by
  rw [natStr_length_step]
  split <;> omega

theorem natStr_length_mono : ∀ (m n : Nat), m ≤ n →
    (natStr m).length ≤ (natStr n).length := by
  intro m
  induction m using Nat.strong_induction_on with
  | _ m ih =>
    intro n hmn
    by_cases hm : m < 10
    · have h1 : (natStr m).length = 1 := by rw [natStr_length_step]; simp [hm]
      rw [h1]
      exact natStr_length_pos n
    · have hn : ¬ n < 10 := by omega
      rw [natStr_length_step m, natStr_length_step n]
      simp only [hm, hn, if_false]
      have hdiv : m / 10 < m := Nat.div_lt_self (by omega) (by omega)
      have := ih (m / 10) hdiv (n / 10) (Nat.div_le_div_right hmn)
      omega

theorem padStart_length {s : String} {w : Nat} (h : s.length ≤ w) :
    (padStart s w).length = w := by
  have hs : s.length = s.data.length := rfl
  simp only [padStart, String.length, List.length_append, List.length_replicate]
  omega

theorem padEnd_length {s : String} {w : Nat} (h : s.length ≤ w) :
    (padEnd s w).length = w := by
  have hs : s.length = s.data.length := rfl
  simp only [padEnd, String.length, List.length_append, List.length_replicate]
  omega

theorem foldl_max_le_acc (f : Diag → Nat) : ∀ (ds : List Diag) (acc : Nat),
    acc ≤ ds.foldl (fun m x => max m (f x)) acc := by
  intro ds
  induction ds with
  | nil => intro acc; simp
  | cons d ds ih =>
    intro acc
    rw [List.foldl_cons]
    exact le_trans (Nat.le_max_left acc (f d)) (ih (max acc (f d)))

theorem foldl_max_le (f : Diag → Nat) : ∀ (ds : List Diag) (acc : Nat) (d : Diag),
    d ∈ ds → f d ≤ ds.foldl (fun m x => max m (f x)) acc := by
  intro ds
  induction ds with
  | nil => intro acc d h; cases h
  | cons e ds ih =>
    intro acc d h
    rw [List.foldl_cons]
    rcases List.mem_cons.mp h with heq | hmem
    · subst heq
      exact le_trans (Nat.le_max_right acc (f d)) (foldl_max_le_acc f ds (max acc (f d)))
    · exact ih (max acc (f e)) d hmem

theorem markStr_markStr (s : String) : markStr (markStr s) = markStr s := by
  cases s with
  | mk data => simp [markStr]

theorem getD_set_self {ls : List String} {i : Nat} {a : String} (h : i < ls.length) :
    (ls.set i a).getD i "" = a := by
  simp [List.getD_eq_getElem?_getD, List.getElem?_set_self h]

theorem getD_set_ne {ls : List String} {i j : Nat} {a : String} (h : i ≠ j) :
    (ls.set i a).getD j "" = ls.getD j "" := by
  simp [List.getD_eq_getElem?_getD, List.getElem?_set_ne h]

theorem markAt_length (ls : List String) (i : Nat) :
    (markAt ls i).length = ls.length := List.length_set ls i _

theorem markAt_getD_self {ls : List String} {i : Nat} (h : i < ls.length) :
    (markAt ls i).getD i "" = markStr (ls.getD i "") := getD_set_self h

theorem markAt_getD_ne {ls : List String} {i j : Nat} (h : i ≠ j) :
    (markAt ls i).getD j "" = ls.getD j "" := getD_set_ne h

theorem markFold_length : ∀ (ds : List Diag) (ls : List String),
    (ds.foldl (fun acc d => markAt acc (d.line - 1)) ls).length = ls.length := by
  intro ds
  induction ds with
  | nil => intro ls; rfl
  | cons d ds ih =>
    intro ls
    rw [List.foldl_cons, ih, markAt_length]

theorem markFold_getD : ∀ (ds : List Diag) (ls : List String) (j : Nat), j < ls.length →
    (ds.foldl (fun acc d => markAt acc (d.line - 1)) ls).getD j "" =
      if ∃ d ∈ ds, d.line - 1 = j then markStr (ls.getD j "") else ls.getD j "" := by
  intro ds
  induction ds with
  | nil =>
    intro ls j hj
    rw [List.foldl_nil, if_neg]
    rintro ⟨d, hd, -⟩
    cases hd
  | cons d ds ih =>
    intro ls j hj
    rw [List.foldl_cons]
    have hlen : j < (markAt ls (d.line - 1)).length := by rw [markAt_length]; exact hj
    rw [ih _ j hlen]
    by_cases hd : d.line - 1 = j
    · have hall : ∃ e ∈ d :: ds, e.line - 1 = j := ⟨d, List.mem_cons_self d ds, hd⟩
      have hget : (markAt ls (d.line - 1)).getD j "" = markStr (ls.getD j "") := by
        rw [hd]; exact markAt_getD_self hj
      rw [if_pos hall]
      by_cases hds : ∃ e ∈ ds, e.line - 1 = j
      · rw [if_pos hds, hget, markStr_markStr]
      · rw [if_neg hds, hget]
    · have hget : (markAt ls (d.line - 1)).getD j "" = ls.getD j "" := markAt_getD_ne hd
      by_cases hds : ∃ e ∈ ds, e.line - 1 = j
      · have hall : ∃ e ∈ d :: ds, e.line - 1 = j := by
          obtain ⟨e, he, hej⟩ := hds
          exact ⟨e, List.mem_cons_of_mem d he, hej⟩
        rw [if_pos hds, if_pos hall, hget]
      · have hall : ¬ ∃ e ∈ d :: ds, e.line - 1 = j := by
          rintro ⟨e, he, hej⟩
          rcases List.mem_cons.mp he with rfl | hmem
          · exact hd hej
          · exact hds ⟨e, hmem, hej⟩
        rw [if_neg hds, if_neg hall, hget]

theorem numberWith_length (gut : Nat → String) : ∀ (ls : List String) (n : Nat),
    (numberWith gut n ls).length = ls.length := by
  intro ls
  induction ls with
  | nil => intro n; rfl
  | cons l ls ih => intro n; simp [numberWith, ih]

theorem numberWith_getD (gut : Nat → String) : ∀ (ls : List String) (n j : Nat),
    j < ls.length →
    (numberWith gut n ls).getD j "" = gut (n + j) ++ ls.getD j "" := by
  intro ls
  induction ls with
  | nil => intro n j h; simp at h
  | cons l ls ih =>
    intro n j hj
    cases j with
    | zero => simp [numberWith]
    | succ j' =>
      have hj' : j' < ls.length := by simpa using hj
      rw [show numberWith gut n (l :: ls) = (gut n ++ l) :: numberWith gut (n + 1) ls from rfl,
        List.getD_cons_succ, ih (n + 1) j' hj']
      have : n + 1 + j' = n + (j' + 1) := by omega
      rw [this, List.getD_cons_succ]

theorem filterEffectsList_append : ∀ (xs ys : List Ast),
    filterEffectsList (xs ++ ys) = filterEffectsList xs ++ filterEffectsList ys := by
  intro xs ys
  induction xs with
  | nil => simp [filterEffectsList]
  | cons a as ih =>
    rw [List.cons_append,
      show filterEffectsList (a :: (as ++ ys)) =
        filterEffects false a ++ filterEffectsList (as ++ ys) from rfl,
      show filterEffectsList (a :: as) = filterEffects false a ++ filterEffectsList as from rfl,
      ih, List.append_assoc]

theorem processNodes_map_pos : ∀ (ns : List NodeRec) (pend : Bool) (ds : List Diag),
    processNodes pend ns = some ds →
    List.Sublist (ds.map dPair) (ns.map nPair) := by
  intro ns
  induction ns with
  | nil =>
    intro pend ds h
    rw [show processNodes pend [] = some [] from rfl] at h
    cases h
    simp
  | cons n rest ih =>
    intro pend ds h
    cases n with
    | pureMark p =>
      rw [show processNodes pend (.pureMark p :: rest) = processNodes true rest from rfl] at h
      exact (ih true ds h).cons _
    | memberN p =>
      rw [show processNodes pend (.memberN p :: rest) =
        (processNodes false rest).map (fun ds => ⟨p.line, p.column, riskyMsg⟩ :: ds) from rfl] at h
      cases hrest : processNodes false rest with
      | none => rw [hrest] at h; cases h
      | some ds' =>
        rw [hrest, Option.map_some'] at h
        cases h
        simp only [List.map_cons]
        exact (ih false ds' hrest).cons₂ _
    | invoke isNew callee hv p =>
      cases hc : calleeName callee with
      | none =>
        simp [processNodes, hc] at h
      | some nm =>
        simp only [processNodes, hc] at h
        cases hrest : processNodes false rest with
        | none => rw [hrest] at h; cases h
        | some ds' =>
          rw [hrest, Option.map_some'] at h
          cases hcm : classifyMsg pend nm isNew hv with
          | none =>
            rw [hcm] at h
            cases h
            exact (ih false ds' hrest).cons _
          | some m =>
            rw [hcm] at h
            cases h
            simp only [List.map_cons]
            exact (ih false ds' hrest).cons₂ _

instance : IsTotal NodeRec (fun a b => a.start ≤ b.start) :=
  ⟨fun a b => Nat.le_total a.start b.start⟩

instance : IsTrans NodeRec (fun a b => a.start ≤ b.start) :=
  ⟨fun _ _ _ => Nat.le_trans⟩

theorem sortNodes_pairwise (ns : List NodeRec) :
    (sortNodes ns).Pairwise (fun a b => a.start ≤ b.start) :=
  List.sorted_insertionSort _ ns

theorem sortNodes_mem {ns : List NodeRec} {n : NodeRec} (h : n ∈ sortNodes ns) : n ∈ ns :=
  (List.perm_insertionSort _ ns).mem_iff.mp h

theorem sortNodes_pairwise_lex {ns : List NodeRec} (hcons : PosConsistent ns) :
    ((sortNodes ns).map nPair).Pairwise lexLE := by
  rw [List.pairwise_map]
  refine List.Pairwise.imp_of_mem ?_ (sortNodes_pairwise ns)
  intro a b ha hb hab
  exact hcons a (sortNodes_mem ha) b (sortNodes_mem hb) hab

theorem lintAst_errors_sorted {body comments : List Ast} {srcLines : List String}
    {r : LintResult} (hcons : PosConsistent (collectModule body comments))
    (h : lintAst body comments srcLines = some r) :
    (r.errors.map dPair).Pairwise lexLE := by
  obtain ⟨ds, hds, hr⟩ := Option.map_eq_some'.mp h
  have herr : r.errors = ds := by rw [← hr]
  rw [herr]
  exact List.Pairwise.sublist (processNodes_map_pos _ false ds hds)
    (sortNodes_pairwise_lex hcons)

instance (p q : Nat × Nat) : Decidable (lexLE p q) :=
  inferInstanceAs (Decidable (p.1 < q.1 ∨ (p.1 = q.1 ∧ p.2 ≤ q.2)))

instance (ns : List NodeRec) : Decidable (PosConsistent ns) :=
  inferInstanceAs (Decidable (∀ m ∈ ns, ∀ n ∈ ns, m.start ≤ n.start → lexLE (nPair m) (nPair n)))

theorem padStart_eq (s : String) (w : Nat) :
    padStart s w = ⟨List.replicate (w - s.length) ' '⟩ ++ s := by
  cases s
  rfl

theorem gutterP0_spec {N i : Nat} (h : i + 1 ≤ N) :
    ∃ k, 2 ≤ k ∧
      gutterP0 N (i + 1) = ⟨List.replicate k ' '⟩ ++ (natStr (i + 1) ++ ":") ∧
      (gutterP0 N (i + 1)).length = (natStr N).length + 3 := by
  have hmono := natStr_length_mono (i + 1) N h
  have hslen : (natStr (i + 1) ++ ":").length = (natStr (i + 1)).length + 1 := by
    rw [String.length_append]
    rfl
  refine ⟨(natStr N).length + 3 - ((natStr (i + 1)).length + 1), by omega, ?_, ?_⟩
  · rw [gutterP0, padStart_eq, hslen]
  · rw [gutterP0, padStart_length (by rw [hslen]; omega)]

/-! ### Claim theorems -/

/-- C1 (counterexample): the claim says binding via an assignment expression
counts as a destination, so `a = f()` would get the "must be annotated"
(`UnannotatedInvocation`) diagnostic.  The analyzer instead emits the "must
have a value" (`UnassignedInvocation`) message for it, because only a
`VariableDeclarator` ever sets `hasValue` (`src/index.js` line 203). -/
theorem C1_counterexample :
    (lintAst [.exprStmt (.assign (.ident "a") (.callE ⟨4, 1, 4⟩ (.ident "f") []))] []
        ["a = f()"]).map LintResult.errors
      = some [⟨1, 4, unassignedMsg false⟩] ∧
    unassignedMsg false ≠ annotMsg false := by
  constructor
  · decide
  · decide

/-- C1 (amended): for a top-level invocation/construction that is neither
annotated nor a builtin, the diagnostic is decided by the `hasValue` mark: the
"must be annotated" message when the invocation is the direct initializer of a
variable declarator — the only binding the analyzer records as a destination —
and the stronger "must have a value" message otherwise, including results
bound through an assignment expression or an object property. -/
theorem C1_destination :
    (∀ (isNew : Bool) (callee : Ast) (hv : Bool) (pos : Pos) (rest : List NodeRec)
        (nm : String),
      calleeName callee = some nm → builtins.contains nm = false →
      processNodes false (.invoke isNew callee hv pos :: rest) =
        (processNodes false rest).map
          (fun ds => ⟨pos.line, pos.column,
            if hv then annotMsg isNew else unassignedMsg isNew⟩ :: ds)) ∧
    ((lintAst [.varDecl [.declarator (.callE ⟨10, 1, 10⟩ (.ident "f") [])]] []
        ["const x = f()"]).map LintResult.errors = some [⟨1, 10, annotMsg false⟩]) ∧
    ((lintAst [.exprStmt (.assign (.ident "x") (.callE ⟨4, 1, 4⟩ (.ident "f") []))] []
        ["x = f()"]).map LintResult.errors = some [⟨1, 4, unassignedMsg false⟩]) ∧
    ((lintAst [.varDecl [.declarator (.objectE [.property (.ident "k")
        (.callE ⟨15, 1, 15⟩ (.ident "f") [])])]] []
        ["const x = \x7b k: f() \x7d"]).map LintResult.errors
      = some [⟨1, 15, unassignedMsg false⟩]) := by
  refine ⟨?_, by decide, by decide, by decide⟩
  intro isNew callee hv pos rest nm h1 h2
  have hcm : classifyMsg false nm isNew hv =
      some (if hv then annotMsg isNew else unassignedMsg isNew) := by
    cases hv <;> (simp only [classifyMsg]; rw [h2]) <;> rfl
  simp only [processNodes, h1, hcm]

/-- C1 (witness): the amended classification applied at a declarator-bound
call of a non-builtin. -/
theorem C1_destination_witness :
    processNodes false [.invoke false (.ident "g") true ⟨0, 2, 5⟩] =
      some [⟨2, 5, annotMsg false⟩] := by
  have h := C1_destination.1 false (.ident "g") true ⟨0, 2, 5⟩ [] "g" (by decide) (by decide)
  simpa using h

/-- C2: an invocation whose immediate predecessor in the position-sorted
record sequence is a purity annotation yields no diagnostic (the general
conjunct); `const x = /* @__PURE__ */ f()` lints clean end to end; and
adjacency is positional, not textual — a member-access record standing
between the annotation and the call defeats the annotation even on the same
line. -/
theorem C2_annotated :
    (∀ (pend : Bool) (p : Pos) (isNew : Bool) (callee : Ast) (hv : Bool) (pos : Pos)
        (rest : List NodeRec) (nm : String),
      calleeName callee = some nm →
      processNodes pend (.pureMark p :: .invoke isNew callee hv pos :: rest) =
        processNodes false rest) ∧
    (lintAst [.varDecl [.declarator (.callE ⟨26, 1, 26⟩ (.ident "f") [])]]
        [.blockComment " @__PURE__ " ⟨10, 1, 10⟩] ["const x = /* @__PURE__ */ f()"]
      = some ⟨["  1:const x = /* @__PURE__ */ f()"], []⟩) ∧
    (lintAst [.exprStmt (.member ⟨16, 1, 16⟩ (.ident "a") "b"),
        .exprStmt (.callE ⟨21, 1, 21⟩ (.ident "f") [])]
        [.blockComment " @__PURE__ " ⟨0, 1, 0⟩] ["/* @__PURE__ */ a.b; f()"]
      = some ⟨["> 1:/* @__PURE__ */ a.b; f()"],
          [⟨1, 16, riskyMsg⟩, ⟨1, 21, unassignedMsg false⟩]⟩) := by
  refine ⟨?_, by decide, by decide⟩
  intro pend p isNew callee hv pos rest nm h1
  have hcm : classifyMsg true nm isNew hv = none := by simp [classifyMsg]
  simp only [processNodes, h1, hcm]
  cases processNodes false rest <;> rfl

/-- C2 (witness): the adjacency rule applied at a concrete annotated call. -/
theorem C2_annotated_witness :
    processNodes false [.pureMark ⟨0, 1, 0⟩, .invoke false (.ident "f") false ⟨5, 1, 5⟩] =
      some [] := by
  have h := C2_annotated.1 false ⟨0, 1, 0⟩ false (.ident "f") false ⟨5, 1, 5⟩ [] "f" rfl
  simpa using h

/-- C3: an invocation whose reconstructed one-level dotted callee name is in
the builtins allowlist yields no diagnostic, whatever the binding and
annotation state; a discarded `Math.max(1, 2)` lints clean end to end. -/
theorem C3_builtin :
    (∀ (pend : Bool) (isNew : Bool) (callee : Ast) (hv : Bool) (pos : Pos)
        (rest : List NodeRec) (nm : String),
      calleeName callee = some nm → nm ∈ builtins →
      processNodes pend (.invoke isNew callee hv pos :: rest) = processNodes false rest) ∧
    ((lintAst [.exprStmt (.callE ⟨0, 1, 0⟩ (.member ⟨0, 1, 0⟩ (.ident "Math") "max")
        [.lit, .lit])] [] ["Math.max(1, 2)"]).map LintResult.errors = some []) := by
  refine ⟨?_, by decide⟩
  intro pend isNew callee hv pos rest nm h1 h2
  have hc : builtins.contains nm = true := List.elem_iff.mpr h2
  have hcm : classifyMsg pend nm isNew hv = none := by
    simp only [classifyMsg]
    rw [hc]
    simp
  simp only [processNodes, h1, hcm]
  cases processNodes false rest <;> rfl

/-- C3 (witness): the builtin rule applied at a discarded, unannotated
`Math.max` call. -/
theorem C3_builtin_witness :
    processNodes false
      [.invoke false (.member ⟨0, 1, 0⟩ (.ident "Math") "max") false ⟨0, 1, 0⟩] = some [] := by
  have h := C3_builtin.1 false false (.member ⟨0, 1, 0⟩ (.ident "Math") "max") false
    ⟨0, 1, 0⟩ [] "Math.max" (by decide) (by decide)
  simpa using h

/-- C4: the claim says the analysis never throws and classifies an anonymous
callee under case 4.  In `src/index.js` the name reconstruction
`node.callee.name || node.callee.object.name + ...` dereferences `undefined`
for a callee that is neither an identifier nor a member access, so `lint`
throws a `TypeError` instead of returning a diagnostic: an immediately
invoked function expression aborts the whole analysis. -/
theorem C4_anonymous_callee_throws :
    (∀ (pend isNew : Bool) (fnBody : List Ast) (hv : Bool) (pos : Pos)
        (rest : List NodeRec),
      processNodes pend (.invoke isNew (.funcExpr fnBody) hv pos :: rest) = none) ∧
    lintAst [.exprStmt (.callE ⟨0, 1, 0⟩ (.funcExpr []) [])] []
      ["(function()\x7b\x7d)()"] = none := by
  exact ⟨fun pend isNew fnBody hv pos rest => rfl, by decide⟩

/-- C5: the collector never descends into a function-like body — a
`FunctionDeclaration` or function/arrow expression contributes no records
whatever its body holds — so a module whose only top-level statement defines
a function (around any body at all) yields zero diagnostics. -/
theorem C5_scope_cutoff :
    (∀ (fnBody : List Ast) (hv : Bool),
      filterEffects hv (.functionDecl fnBody) = [] ∧
      filterEffects hv (.funcExpr fnBody) = []) ∧
    (∀ (fnBody : List Ast) (srcLines : List String),
      lintAst [.functionDecl fnBody] [] srcLines =
        some ⟨numberLinesIdx srcLines, []⟩) := by
  exact ⟨fun fnBody hv => ⟨rfl, rfl⟩, fun fnBody srcLines => rfl⟩

/-- C6: a member access in callee position is never pushed as a record — the
collector pushes the invocation and recurses only into the arguments — so
`const a = {}; a.b()` raises no `RiskyMemberAccess` diagnostic while the
invocation `a.b()` itself is still classified (here as an unassigned
invocation). -/
theorem C6_member_callee :
    (∀ (hv : Bool) (pos mpos : Pos) (obj : Ast) (prop : String) (args : List Ast),
      filterEffects hv (.callE pos (.member mpos obj prop) args) =
        .invoke false (.member mpos obj prop) hv pos :: filterEffectsList args) ∧
    ((lintAst [.varDecl [.declarator (.objectE [])],
        .exprStmt (.callE ⟨14, 1, 14⟩ (.member ⟨14, 1, 14⟩ (.ident "a") "b") [])] []
        ["const a = \x7b\x7d; a.b()"]).map LintResult.errors
      = some [⟨1, 14, unassignedMsg false⟩]) ∧
    unassignedMsg false ≠ riskyMsg := by
  exact ⟨fun hv pos mpos obj prop args => rfl, by decide, by decide⟩

/-- C7: whenever the collected records carry consistent positions (earlier
start offset means earlier line/column, as in every real parse), the returned
diagnostic list is ordered by ascending line then column — the classifier
runs over the start-sorted record sequence, whatever order collection
produced — and a module with violations on lines 3 and 7 yields exactly
[diagnostic@3, diagnostic@7]. -/
theorem C7_ordered :
    (∀ (body comments : List Ast) (srcLines : List String) (r : LintResult),
      PosConsistent (collectModule body comments) →
      lintAst body comments srcLines = some r →
      (r.errors.map dPair).Pairwise lexLE) ∧
    ((lintAst [.exprStmt (.callE ⟨20, 3, 0⟩ (.ident "f") []),
        .exprStmt (.callE ⟨40, 7, 0⟩ (.ident "g") [])] []
        ["", "", "f()", "", "", "", "g()"]).map (fun r => r.errors.map dPair)
      = some [(3, 0), (7, 0)]) := by
  exact ⟨fun body comments srcLines r hcons h => lintAst_errors_sorted hcons h, by decide⟩

/-- C7 (witness): the ordering theorem applied to the two-violation module. -/
theorem C7_ordered_witness :
    (([⟨3, 0, unassignedMsg false⟩, ⟨7, 0, unassignedMsg false⟩] : List Diag).map
      dPair).Pairwise lexLE := by
  have h := C7_ordered.1 [.exprStmt (.callE ⟨20, 3, 0⟩ (.ident "f") []),
      .exprStmt (.callE ⟨40, 7, 0⟩ (.ident "g") [])] []
      ["", "", "f()", "", "", "", "g()"]
      ⟨["  1:", "  2:", "> 3:f()", "  4:", "  5:", "  6:", "> 7:g()"],
        [⟨3, 0, unassignedMsg false⟩, ⟨7, 0, unassignedMsg false⟩]⟩
      (by decide) (by decide)
  exact h

/-- C8: for any source lines and any non-empty diagnostic batch whose lines
are in range, the part_000 renderer produces (a) a listing of the same length
whose lines with a diagnostic have the `>` marker written over the first
gutter character and whose other lines keep the plain gutter, (b) gutters
that are right-aligned — leading spaces before the line number and colon —
with the one uniform width derived from the widest line number, and (c) one
message string per diagnostic of the shape line `:` column ` ` message, with
the line and column fields padded to the batch-wide maxima. -/
theorem C8_renderer :
    ∀ (src : List String) (ds : List Diag),
      ds ≠ [] → (∀ d ∈ ds, 1 ≤ d.line ∧ d.line ≤ src.length) →
      ((renderP0 src ds).1.length = src.length) ∧
      (∀ i, i < src.length →
        ((∃ d ∈ ds, d.line = i + 1) →
          (renderP0 src ds).1.getD i "" =
            markStr (gutterP0 src.length (i + 1) ++ src.getD i "")) ∧
        ((¬ ∃ d ∈ ds, d.line = i + 1) →
          (renderP0 src ds).1.getD i "" =
            gutterP0 src.length (i + 1) ++ src.getD i "")) ∧
      (∀ i, i < src.length →
        ∃ k, 2 ≤ k ∧
          gutterP0 src.length (i + 1) = ⟨List.replicate k ' '⟩ ++ (natStr (i + 1) ++ ":") ∧
          (gutterP0 src.length (i + 1)).length = (natStr src.length).length + 3) ∧
      ((renderP0 src ds).2 = ds.map (renderMsgP0 (maxLineW ds) (maxColW ds)) ∧
        ∀ d ∈ ds,
          (padStart (natStr d.line) (maxLineW ds)).length = maxLineW ds ∧
          (padEnd (natStr d.column) (maxColW ds)).length = maxColW ds) := by
  intro src ds hne hrange
  have hlen1 : (numberLinesP0 src).length = src.length := numberWith_length _ src 1
  simp only [renderP0]
  refine ⟨?_, ?_, ?_, trivial, ?_⟩
  · rw [markFold_length, hlen1]
  · intro i hi
    have hi' : i < (numberLinesP0 src).length := by rw [hlen1]; exact hi
    have hbase : (numberLinesP0 src).getD i "" =
        gutterP0 src.length (i + 1) ++ src.getD i "" := by
      have h := numberWith_getD (gutterP0 src.length) src 1 i hi
      rwa [Nat.add_comm 1 i] at h
    have hmain := markFold_getD ds (numberLinesP0 src) i hi'
    constructor
    · intro hex
      have hex' : ∃ d ∈ ds, d.line - 1 = i := by
        obtain ⟨d, hd, hline⟩ := hex
        exact ⟨d, hd, by omega⟩
      rw [hmain, if_pos hex', hbase]
    · intro hnex
      have hnex' : ¬ ∃ d ∈ ds, d.line - 1 = i := by
        rintro ⟨d, hd, hline⟩
        have h1 := (hrange d hd).1
        exact hnex ⟨d, hd, by omega⟩
      rw [hmain, if_neg hnex', hbase]
  · intro i hi
    exact gutterP0_spec (by omega)
  · intro d hd
    have hline : (natStr d.line).length ≤ maxLineW ds :=
      foldl_max_le (fun x => (natStr x.line).length) ds 0 d hd
    have hcol : (natStr d.column).length ≤ maxColW ds :=
      foldl_max_le (fun x => (natStr x.column).length) ds 0 d hd
    exact ⟨padStart_length hline, padEnd_length hcol⟩

/-- C8 (witness): the renderer theorem applied to a three-line source with
one diagnostic on line 2. -/
theorem C8_renderer_witness :
    (renderP0 ["aa", "bb", "cc"] [⟨2, 4, "m"⟩]).1.length = 3 ∧
    (renderP0 ["aa", "bb", "cc"] [⟨2, 4, "m"⟩]).1.getD 1 "" =
      markStr (gutterP0 3 2 ++ "bb") := by
  have h := C8_renderer ["aa", "bb", "cc"] [⟨2, 4, "m"⟩] (by decide) (by decide)
  exact ⟨h.1, (h.2.1 1 (by decide)).1 ⟨⟨2, 4, "m"⟩, by decide, rfl⟩⟩

/-- C9 (counterexample): on a full success the main implementation prints
its success line with the input path spliced in bare — for input `mod.js` the
line differs from the quoted form the claim specifies. -/
theorem C9_counterexample :
    runBackendsIdx "mod.js" [("Rollup", [.importDecl]), ("Webpack", [.importDecl]),
        ("ESBuild", [.importDecl])]
      = .ok "Successfully tree-shaken mod.js with Rollup, Webpack, and ESBuild!" ∧
    "Successfully tree-shaken mod.js with Rollup, Webpack, and ESBuild!" ≠
      "Successfully tree-shaken \"mod.js\" with Rollup, Webpack, and ESBuild!" := by
  exact ⟨rfl, by decide⟩

/-- C9 (amended): on full success — every backend's output solely import
declarations — `src/index.js` prints `Successfully tree-shaken <input> with
Rollup, Webpack, and ESBuild!` (input unquoted) and the process exits with
code 0; the quoted success line appears only in the `src/unnamed/part_000`
iteration. -/
theorem C9_success_line :
    (∀ (input : String) (outs : List (String × List Ast)),
      (∀ p ∈ outs, ∀ s ∈ p.2, isImportDecl s = true) →
      runBackendsIdx input outs = .ok (successLineIdx input) ∧
      exitCodeIdx input outs = 0) ∧
    (∀ input : String, successLineIdx input =
      "Successfully tree-shaken " ++ input ++ " with Rollup, Webpack, and ESBuild!") ∧
    (∀ input : String, successLineP0 input =
      "Successfully tree-shaken \"" ++ input ++ "\" with Rollup, Webpack, and ESBuild!") := by
  refine ⟨?_, ?_, ?_⟩
  · intro input outs
    induction outs with
    | nil => intro h; exact ⟨rfl, rfl⟩
    | cons p rest ih =>
      intro h
      obtain ⟨b, body⟩ := p
      have hall : body.all isImportDecl = true :=
        List.all_eq_true.mpr (fun s hs => h (b, body) (List.mem_cons_self _ rest) s hs)
      have hrun : runBackendsIdx input ((b, body) :: rest) = runBackendsIdx input rest := by
        simp only [runBackendsIdx, hall, if_true]
      have hrest := ih (fun q hq s hs => h q (List.mem_cons_of_mem _ hq) s hs)
      constructor
      · rw [hrun]; exact hrest.1
      · unfold exitCodeIdx
        rw [hrun, hrest.1]
  · intro input
    have hL : listFormatConj bundlerNames = "Rollup, Webpack, and ESBuild" := by decide
    unfold successLineIdx
    rw [hL, String.append_assoc, String.append_assoc,
      show " with " ++ ("Rollup, Webpack, and ESBuild" ++ "!") =
        " with Rollup, Webpack, and ESBuild!" by decide]
  · intro input
    have hL : listFormatConj bundlerNames = "Rollup, Webpack, and ESBuild" := by decide
    unfold successLineP0
    rw [hL, String.append_assoc, String.append_assoc, String.append_assoc,
      show "\" with " ++ ("Rollup, Webpack, and ESBuild" ++ "!") =
        "\" with Rollup, Webpack, and ESBuild!" by decide,
      ← String.append_assoc]

/-- C9 (witness): the success path applied to three passing backends. -/
theorem C9_success_line_witness :
    runBackendsIdx "m.js" [("Rollup", [.importDecl]), ("Webpack", []),
        ("ESBuild", [.importDecl, .importDecl])] = .ok (successLineIdx "m.js") ∧
    exitCodeIdx "m.js" [("Rollup", [.importDecl]), ("Webpack", []),
        ("ESBuild", [.importDecl, .importDecl])] = 0 :=
  C9_success_line.1 "m.js" [("Rollup", [.importDecl]), ("Webpack", []),
    ("ESBuild", [.importDecl, .importDecl])] (by decide)

/-- C10 (counterexample): the claim says a block comment with non-marker
content resets a pending annotation.  With `/* @__PURE__ */ /* not pure */
f()` the middle comment never enters the record sequence, so the annotation
still reaches `f()` and the analyzer reports zero diagnostics, where the
claim predicts an unassigned-invocation diagnostic. -/
theorem C10_counterexample :
    (lintAst [.exprStmt (.callE ⟨31, 1, 31⟩ (.ident "f") [])]
        [.blockComment " @__PURE__ " ⟨0, 1, 0⟩, .blockComment " not pure " ⟨16, 1, 16⟩]
        ["/* @__PURE__ */ /* not pure */ f()"]).map LintResult.errors = some [] := by
  decide

/-- C10 (amended): only block comments whose trimmed text is exactly
`@__PURE__` or `#__PURE__` are recorded as annotations; a line comment never
is, so a line comment carrying the marker text does not suppress the
diagnostic of the following invocation; and a block comment with any other
content is excluded from the record sequence altogether — it neither
annotates nor resets a pending annotation, and the whole analysis is
unchanged by its presence. -/
theorem C10_markers :
    (∀ (v : String) (p : Pos) (hv : Bool), isPureText v = false →
      filterEffects hv (.blockComment v p) = []) ∧
    (∀ (v : String) (p : Pos) (hv : Bool), filterEffects hv (.lineComment v p) = []) ∧
    (∀ (body : List Ast) (v : String) (p : Pos) (cs : List Ast) (srcLines : List String),
      isPureText v = false →
      lintAst body (.blockComment v p :: cs) srcLines = lintAst body cs srcLines) ∧
    ((lintAst [.exprStmt (.callE ⟨13, 2, 0⟩ (.ident "f") [])]
        [.lineComment " @__PURE__" ⟨0, 1, 0⟩] ["// @__PURE__", "f()"]).map
        LintResult.errors
      = some [⟨2, 0, unassignedMsg false⟩]) := by
  refine ⟨?_, fun v p hv => rfl, ?_, by decide⟩
  · intro v p hv h
    simp [filterEffects, h]
  · intro body v p cs srcLines h
    have hcol : collectModule body (.blockComment v p :: cs) = collectModule body cs := by
      unfold collectModule
      rw [filterEffectsList_append, filterEffectsList_append,
        show filterEffectsList (.blockComment v p :: cs) =
          filterEffects false (.blockComment v p) ++ filterEffectsList cs from rfl]
      simp [filterEffects, h]
    unfold lintAst
    rw [hcol]

/-- C10 (witness): a non-marker block comment leaves the analysis of a
module unchanged. -/
theorem C10_markers_witness :
    lintAst [.exprStmt (.callE ⟨15, 1, 15⟩ (.ident "f") [])]
        [.blockComment " x " ⟨0, 1, 0⟩] ["/* x */ also... f()"] =
      lintAst [.exprStmt (.callE ⟨15, 1, 15⟩ (.ident "f") [])] []
        ["/* x */ also... f()"] :=
  C10_markers.2.2.1 [.exprStmt (.callE ⟨15, 1, 15⟩ (.ident "f") [])] " x " ⟨0, 1, 0⟩ []
    ["/* x */ also... f()"] (by decide)

end Treeshake

